import Mathlib

/-!
Verification development for the banking-box repository.

The definitions below are a shallow embedding of the rebalancing engine
(`src/api/balance_allocations.py`), the cross-party account aggregator
(`src/services/account_service.py`), the cache utilities
(`src/services/cache_utils.py`) and the interbank consent gate of
`src/api/accounts.py`.  Python `Decimal` values are modelled as exact
rationals (`ℚ`); `Decimal.quantize(Decimal("0.01"))` is modelled by
`quantize2`, which rounds to two fraction digits with ties going to the
even multiple, matching the `ROUND_HALF_EVEN` default of the `decimal`
module.  The 28-significant-digit context of `decimal` is not modelled:
all intermediate arithmetic is exact, which agrees with the Python code
on all inputs whose intermediate results fit in the default context.
-/

namespace BankingBox

/-! ## Decimal arithmetic -/

/-- Round a rational to the nearest integer, ties to even
(the `ROUND_HALF_EVEN` mode used by `Decimal.quantize` by default). -/
def roundHalfEven (x : ℚ) : ℤ :=
  let n : ℤ := ⌊x⌋
  let f : ℚ := x - n
  if f < 1/2 then n
  else if 1/2 < f then n + 1
  else if n % 2 = 0 then n else n + 1

/-- `x.quantize(Decimal("0.01"))`: round to two fraction digits, half to even. -/
def quantize2 (x : ℚ) : ℚ :=
  (roundHalfEven (x * 100) : ℚ) / 100

/-! ## Decimal string parsing

`Decimal(str(s))` is modelled by `parseDecimal?`.  The modelled grammar is
an optional sign followed by digits with an optional fractional part
(`[+|-] digits [. digits]`, at least one digit overall).  Exponent forms,
special values (`NaN`, `Infinity`), whitespace padding and digit-group
underscores are outside the modelled grammar and are treated as
unparsable; none of the balance strings relevant to the claims use them. -/

/-- Parse a run of decimal digits into (value, number of digits consumed). -/
def parseDigits : List Char → Nat → Nat → (Nat × Nat)
  | [], acc, n => (acc, n)
  | c :: cs, acc, n =>
    if c.isDigit then parseDigits cs (acc * 10 + (c.toNat - '0'.toNat)) (n + 1)
    else (acc, n)

/-- Drop the leading digit run. -/
def dropDigits : List Char → List Char
  | [] => []
  | c :: cs => if c.isDigit then dropDigits cs else c :: cs

/-- Parse an unsigned decimal literal `digits [. digits]`. -/
def parseUnsigned? (cs : List Char) : Option ℚ :=
  let (ip, ilen) := parseDigits cs 0 0
  let rest := dropDigits cs
  match rest with
  | [] => if ilen = 0 then none else some (ip : ℚ)
  | '.' :: frac =>
    let (fp, flen) := parseDigits frac 0 0
    if dropDigits frac ≠ [] then none
    else if ilen = 0 && flen = 0 then none
    else some ((ip : ℚ) + (fp : ℚ) / ((10 : ℚ) ^ flen))
  | _ => none

/-- Parse a signed decimal literal. -/
def parseDecimal? (s : String) : Option ℚ :=
  match s.data with
  | '+' :: cs => parseUnsigned? cs
  | '-' :: cs => (parseUnsigned? cs).map (fun q => -q)
  | cs => parseUnsigned? cs

/-! ## Data model

`ExtAccount` is one element of the list produced by
`get_external_accounts_for_client`: the Python dict
`{"bank_code": ..., "bank_name": ..., "account": ..., "balance": ..., "error": ...}`.
`AccountObj` keeps the two fields of the account sub-dict the engine reads. -/

structure AccountObj where
  accountId : String
  accountSubType : String
  deriving Repr, DecidableEq

structure ExtAccount where
  bank_code : String
  bank_name : String
  account : Option AccountObj
  balance : Option String
  error : Option String
  deriving Repr, DecidableEq

/-- A row of the `banks` table (columns read by the embedded code). -/
structure Bank where
  id : ℕ
  code : String
  name : Option String
  api_url : Option String
  external : Bool
  deriving Repr, DecidableEq

/-- A row of the `virtual_balance_bank_allocations` table. -/
structure Alloc where
  id : ℕ
  bank_id : ℕ
  target_share : Option ℚ
  deriving Repr, DecidableEq

/-- A row of the `consents` table (columns read by the embedded code). -/
structure StoredConsent where
  consent_id : String
  client_id_external : String
  bank_id : ℕ
  granted_to : String
  permissions : List String
  status : String
  expiration_date_time : ℤ
  deriving Repr, DecidableEq

/-- Python truthiness of an optional string (`None` and `""` are falsy). -/
def strTruthy (s : Option String) : Bool :=
  s.getD "" ≠ ""

/-- Python truthiness of an optional integer id (`None` and `0` are falsy). -/
def idTruthy (n : Option ℕ) : Bool :=
  n.getD 0 ≠ 0

/-- Python truthiness of the `error` field: `None` and `""` are falsy. -/
def errFalsy (e : Option String) : Bool :=
  e.getD "" = ""

/-- `bank.name or bank.code`. -/
def bankDisplayName (b : Bank) : String :=
  match b.name with
  | some n => if n = "" then b.code else n
  | none => b.code

/-- First bank in the table with the given code
(`{bank.code: bank for bank in ...}` lookups; codes are unique in the table). -/
def lookupBank (banks : List Bank) (code : String) : Option Bank :=
  banks.find? (fun b => b.code = code)

/-- Keep the first occurrence of each element, skipping those already seen
(the set of elements of a Python `set(...)`; iteration order of the Python
set is unspecified, and no embedded computation depends on it beyond the
set of elements). -/
def dedupAux {α : Type} [DecidableEq α] (seen : List α) : List α → List α
  | [] => []
  | c :: cs => if c ∈ seen then dedupAux seen cs else c :: dedupAux (c :: seen) cs

def dedupFirst {α : Type} [DecidableEq α] (l : List α) : List α :=
  dedupAux [] l

/-- Insertion sort on strings (`sorted(bank_codes)`, ascending; the sorted
input elements are pairwise distinct so stability does not matter). -/
def insertStr (x : String) : List String → List String
  | [] => [x]
  | y :: ys => if y < x then y :: insertStr x ys else x :: y :: ys

def sortStrs (l : List String) : List String :=
  l.foldr insertStr []

/-- Add an element to a set modelled as a duplicate-free list. -/
def insertNew (x : ℕ) (l : List ℕ) : List ℕ :=
  if x ∈ l then l else l ++ [x]

/-! ## Cache utilities (`src/services/cache_utils.py`)

Redis `SCAN ... MATCH pattern` matches the glob pattern against the whole
key.  The patterns and keys produced by this code base use only literal
characters and `*`; the matcher below also supports `?` as Redis does.
The fuel argument makes the recursion structural; each step shortens the
pattern or the key, so `pattern.length + key.length + 1` steps always
suffice. -/

def globAux : ℕ → List Char → List Char → Bool
  | 0, _, _ => false
  | _ + 1, [], [] => true
  | _ + 1, [], _ :: _ => false
  | fuel + 1, '*' :: ps, [] => globAux fuel ps []
  | fuel + 1, '*' :: ps, c :: ks =>
    globAux fuel ps (c :: ks) || globAux fuel ('*' :: ps) ks
  | _ + 1, _ :: _, [] => false
  | fuel + 1, p :: ps, c :: ks =>
    (p = '?' || p = c) && globAux fuel ps ks

/-- Redis glob matching of a pattern against a whole key. -/
def globMatch (pattern key : String) : Bool :=
  globAux (pattern.length + key.length + 1) pattern.data key.data

/-- `client_key_builder`: key format `ns:function_name:client:cid`. -/
def client_key_builder (ns funcName clientId : String) : String :=
  ns ++ ":" ++ funcName ++ ":client:" ++ clientId

/-- `client_page_key_builder`: key format
`ns:function_name:client:cid:page:n`. -/
def client_page_key_builder (ns funcName clientId : String) (page : ℕ) : String :=
  ns ++ ":" ++ funcName ++ ":client:" ++ clientId ++ ":page:" ++ toString page

/-- The pattern used by `invalidate_client_cache`
(the default cache namespace is the string "banking-box"). -/
def invalidatePattern (ns clientId : String) : String :=
  ns ++ ":*:client:" ++ clientId

/-- `invalidate_client_cache` over a store modelled by its list of keys:
the keys that remain after deleting every key matching the pattern. -/
def invalidate_client_cache (keys : List String) (ns clientId : String) : List String :=
  keys.filter (fun k => !globMatch (invalidatePattern ns clientId) k)

/-! ## `validate_target_share_sum` (`src/api/balance_allocations.py`, lines 170-301) -/

/-- An account entry counted by `bank_codes_with_accounts`: truthy bank
code, an account object, and a falsy error. -/
def liveAcc (a : ExtAccount) : Bool :=
  a.bank_code ≠ "" && a.account.isSome && errFalsy a.error

/-- `bank_codes_with_accounts`: the set of bank codes appearing error-free
in the snapshot. -/
def liveCodes (accs : List ExtAccount) : List String :=
  dedupFirst ((accs.filter liveAcc).map (·.bank_code))

/-- `bank_ids_with_accounts`: ids of the banks whose code is in
`bank_codes_with_accounts` (the keys of `banks_dict`). -/
def liveBankIds (banks : List Bank) (codes : List String) : List ℕ :=
  (banks.filter (fun b => b.code ∈ codes)).map (·.id)

/-- The two `continue` conditions of the allocation loop: the row being
updated (`exclude_allocation_id`) or the bank being created
(`exclude_bank_id`); both use Python truthiness on the optional id. -/
def allocSkipped (exclA exclB : Option ℕ) (a : Alloc) : Bool :=
  (idTruthy exclA && a.id == exclA.getD 0) || (idTruthy exclB && a.bank_id == exclB.getD 0)

/-- An allocation row that contributes to `existing_sum` and to
`banks_with_target_after_operation`: not skipped, bank among the live
bank ids, and a non-null `target_share`. -/
def allocCounted (ids : List ℕ) (exclA exclB : Option ℕ) (a : Alloc) : Bool :=
  !allocSkipped exclA exclB a && decide (a.bank_id ∈ ids) && a.target_share.isSome

/-- `existing_sum`: sum of the stored shares of the counted rows. -/
def existingSum (ids : List ℕ) (allocs : List Alloc) (exclA exclB : Option ℕ) : ℚ :=
  ((allocs.filter (allocCounted ids exclA exclB)).map (fun a => a.target_share.getD 0)).sum

/-- `banks_with_target_after_operation` right after the allocation loop. -/
def banksWithTargetBase (ids : List ℕ) (allocs : List Alloc) (exclA exclB : Option ℕ) : List ℕ :=
  dedupFirst ((allocs.filter (allocCounted ids exclA exclB)).map (·.bank_id))

/-- `banks_with_target_after_operation` after the current bank is added:
on update, the bank of the first allocation with the excluded id that is
among the live bank ids; on create, the excluded bank id if live. -/
def banksWithTargetAfter (ids : List ℕ) (allocs : List Alloc) (exclA exclB : Option ℕ) : List ℕ :=
  if idTruthy exclA then
    match allocs.find? (fun a => a.id == exclA.getD 0 && decide (a.bank_id ∈ ids)) with
    | some a => insertNew a.bank_id (banksWithTargetBase ids allocs exclA exclB)
    | none => banksWithTargetBase ids allocs exclA exclB
  else if idTruthy exclB then
    if exclB.getD 0 ∈ ids then
      insertNew (exclB.getD 0) (banksWithTargetBase ids allocs exclA exclB)
    else banksWithTargetBase ids allocs exclA exclB
  else banksWithTargetBase ids allocs exclA exclB

/-- `validate_target_share_sum`: returns
`(is_valid, error_message, max_allowed_share)`. -/
def validate_target_share_sum (banks : List Bank) (allocs : List Alloc)
    (accs : List ExtAccount) (new_target_share : ℚ)
    (exclA exclB : Option ℕ) : Bool × String × ℚ :=
  if (liveCodes accs).isEmpty then (true, "", 100)
  else if 100 < existingSum (liveBankIds banks (liveCodes accs)) allocs exclA exclB
      + new_target_share then
    (false, "Сумма всех целевых долей не должна превышать 100%",
      100 - existingSum (liveBankIds banks (liveCodes accs)) allocs exclA exclB)
  else if (banksWithTargetAfter (liveBankIds banks (liveCodes accs)) allocs
      exclA exclB).length = (liveBankIds banks (liveCodes accs)).length then
    if existingSum (liveBankIds banks (liveCodes accs)) allocs exclA exclB
        + new_target_share ≠ 100 then
      (false, "Все банки должны иметь целевую долю в сумме равную 100%",
        100 - existingSum (liveBankIds banks (liveCodes accs)) allocs exclA exclB)
    else (true, "",
      100 - existingSum (liveBankIds banks (liveCodes accs)) allocs exclA exclB)
  else (true, "",
    100 - existingSum (liveBankIds banks (liveCodes accs)) allocs exclA exclB)

/-! ## `apply_balance_allocations` (`src/api/balance_allocations.py`, lines 815-1127) -/

/-- Step 1 filter: `acc.get("account") is not None and not acc.get("error")`. -/
def validAccounts (accs : List ExtAccount) : List ExtAccount :=
  accs.filter (fun a => a.account.isSome && errFalsy a.error)

/-- `bank_codes = list(set(...))` over the valid accounts. -/
def applyBankCodes (accs : List ExtAccount) : List String :=
  dedupFirst ((validAccounts accs).map (·.bank_code))

/-- Result of a Python expression that may raise an exception which no
surrounding handler catches, so that it propagates to the endpoint's
generic `except Exception` handler (HTTP 500). -/
inductive PyResult (α : Type) where
  | ok (value : α)
  | raised (exn : String)
  deriving Repr, DecidableEq

/-- Balance parsing at the apply endpoint's total-balance and per-account
current-balance steps, with the exception path explicit:
`Decimal(str(balance_str)) if balance_str else Decimal("0")`.  A falsy
(absent or empty) balance is zero without any parsing.  A non-empty
unparsable string makes `Decimal` raise `decimal.InvalidOperation`, which
the surrounding `except (ValueError, TypeError)` does not catch (it is an
`ArithmeticError`), so it propagates and the endpoint returns HTTP 500;
the `balance = Decimal("0")` fallback is unreachable for parse
failures. -/
def applyBalanceChecked : Option String → PyResult ℚ
  | none => .ok 0
  | some s =>
    if s = "" then .ok 0
    else
      match parseDecimal? s with
      | some v => .ok v
      | none => .raised ("InvalidOperation: " ++ s)

/-- Total variant of `applyBalanceChecked` used by the plan pipeline
below: it agrees with the source on every input on which the source does
not raise (absent, empty, or parsable — see
`applyBalanceChecked_agrees`), and arbitrarily returns 0 on a non-empty
unparsable string, where the source raises and produces no plan at all,
so the plan-conditional theorems below never depend on that value. -/
def parseApplyBalance : Option String → ℚ
  | none => 0
  | some s => if s = "" then 0 else (parseDecimal? s).getD 0

/-- Step 7: `total_balance`, summed over the valid accounts. -/
def total_balance (accs : List ExtAccount) : ℚ :=
  ((validAccounts accs).map (fun a => parseApplyBalance a.balance)).sum

/-- `accounts_per_bank` for one bank code. -/
def accountsPerBank (accs : List ExtAccount) (code : String) : ℕ :=
  ((validAccounts accs).filter (fun a => a.bank_code == code)).length

/-- `allocations_by_bank_code`: the client's allocations joined with their
bank rows, keyed by bank code and restricted to codes of the snapshot
(later rows overwrite earlier ones, as in a Python dict). -/
def allocByCode (banks : List Bank) (allocs : List Alloc) (codes : List String)
    (code : String) : Option Alloc :=
  (allocs.filter (fun a =>
    match banks.find? (fun b => b.id == a.bank_id) with
    | some b => b.code == code && decide (b.code ∈ codes)
    | none => false)).getLast?

/-- Step 3: the explicit `target_shares` pairs collected over `bank_codes`. -/
def targetSharesList (banks : List Bank) (allocs : List Alloc)
    (accs : List ExtAccount) : List (String × ℚ) :=
  (applyBankCodes accs).filterMap (fun c =>
    ((allocByCode banks allocs (applyBankCodes accs) c).bind (·.target_share)).map
      (fun s => (c, s)))

/-- Step 3: `empty_target_share_banks`. -/
def emptyShareBanks (banks : List Bank) (allocs : List Alloc)
    (accs : List ExtAccount) : List String :=
  (applyBankCodes accs).filter (fun c =>
    ((allocByCode banks allocs (applyBankCodes accs) c).bind (·.target_share)).isNone)

/-- Step 4: `total_target_share`. -/
def applyTotalShare (banks : List Bank) (allocs : List Alloc)
    (accs : List ExtAccount) : ℚ :=
  ((targetSharesList banks allocs accs).map Prod.snd).sum

/-- Step 8 auto-fill: when exactly one bank has no explicit share it is
assigned the remainder `100 - total_target_share`. -/
def applyFilledShares (banks : List Bank) (allocs : List Alloc)
    (accs : List ExtAccount) : List (String × ℚ) :=
  let shares := targetSharesList banks allocs accs
  match emptyShareBanks banks allocs accs with
  | [c] => shares ++ [(c, 100 - applyTotalShare banks allocs accs)]
  | _ => shares

/-- `target_shares.get(bank_code, Decimal("0"))`. -/
def shareGet (shares : List (String × ℚ)) (code : String) : ℚ :=
  match shares.find? (fun p => p.1 == code) with
  | some p => p.2
  | none => 0

/-- One element of `target_bank_amounts`. -/
structure TargetEntry where
  bank_id : ℕ
  bank_code : String
  bank_name : String
  target_share : ℚ
  target_amount : ℚ
  accounts_count : ℕ
  deriving Repr, DecidableEq

/-- Step 8 loop over `enumerate(bank_codes_sorted)`: banks missing from
`banks_dict` are skipped; every bank except the one at index `n - 1`
receives the rounded amount accumulated into `calculated_sum`, the bank at
the final index receives `total_balance - calculated_sum`. -/
def targetLoop (banks : List Bank) (share : String → ℚ) (counts : String → ℕ)
    (total : ℚ) (n : ℕ) : List String → ℕ → ℚ → List TargetEntry
  | [], _, _ => []
  | c :: cs, i, acc =>
    match lookupBank banks c with
    | none => targetLoop banks share counts total n cs (i + 1) acc
    | some b =>
      if i < n - 1 then
        let t := quantize2 (total * share c / 100)
        ⟨b.id, c, bankDisplayName b, share c, t, counts c⟩ ::
          targetLoop banks share counts total n cs (i + 1) (acc + t)
      else
        ⟨b.id, c, bankDisplayName b, share c, total - acc, counts c⟩ ::
          targetLoop banks share counts total n cs (i + 1) acc

/-- Step 8: `target_bank_amounts`. -/
def targetBankAmounts (banks : List Bank) (allocs : List Alloc)
    (accs : List ExtAccount) : List TargetEntry :=
  let sorted := sortStrs (applyBankCodes accs)
  targetLoop banks (shareGet (applyFilledShares banks allocs accs))
    (accountsPerBank accs) (total_balance accs) sorted.length sorted 0 0

/-- One element of `target_account_balances`. -/
structure AccountTarget where
  bank_code : String
  bank_name : String
  account_id : String
  current_balance : ℚ
  target_balance : ℚ
  deriving Repr, DecidableEq

/-- `bank_target_amounts.get(bank_code, Decimal("0"))`. -/
def bankTargetAmount (entries : List TargetEntry) (code : String) : ℚ :=
  ((entries.find? (fun e => e.bank_code == code)).map (·.target_amount)).getD 0

/-- `bank_accounts_counts.get(bank_code, 1)`. -/
def bankAccountsCount (entries : List TargetEntry) (code : String) : ℕ :=
  ((entries.find? (fun e => e.bank_code == code)).map (·.accounts_count)).getD 1

/-- Step 9: `target_account_balances`, one row per valid account;
`target_balance = (target_amount / accounts_count).quantize(Decimal("0.01"))`. -/
def targetAccountBalances (banks : List Bank) (allocs : List Alloc)
    (accs : List ExtAccount) : List AccountTarget :=
  let entries := targetBankAmounts banks allocs accs
  (validAccounts accs).map (fun a =>
    ⟨a.bank_code, a.bank_name, ((a.account.map (·.accountId)).getD ""),
      parseApplyBalance a.balance,
      quantize2 (bankTargetAmount entries a.bank_code /
        (bankAccountsCount entries a.bank_code : ℚ))⟩)

/-- A surplus or deficit queue element (`account_id`, positive amount). -/
structure SDItem where
  account_id : String
  amount : ℚ
  deriving Repr, DecidableEq

/-- Step 10: the surplus queue (`diff > 0.01`), in discovery order. -/
def surplusAccounts (tabs : List AccountTarget) : List SDItem :=
  tabs.filterMap (fun t =>
    let d := t.current_balance - t.target_balance
    if 1/100 < d then some ⟨t.account_id, d⟩ else none)

/-- Step 10: the deficit queue (`diff < -0.01`), carrying `-diff`. -/
def deficitAccounts (tabs : List AccountTarget) : List SDItem :=
  tabs.filterMap (fun t =>
    let d := t.current_balance - t.target_balance
    if d < -(1/100) then some ⟨t.account_id, -d⟩ else none)

/-- `account_to_bank.get(account_id, ...)`: display name and id of the bank
of the last `target_account_balances` row with this account id whose bank
code is in `banks_dict`, defaulting to `("Unknown", 0)`. -/
def accountBankInfo (banks : List Bank) (tabs : List AccountTarget)
    (accId : String) : String × ℕ :=
  match (tabs.filter (fun t => (lookupBank banks t.bank_code).isSome
      && t.account_id == accId)).getLast? with
  | some t =>
    match lookupBank banks t.bank_code with
    | some b => (bankDisplayName b, b.id)
    | none => ("Unknown", 0)
  | none => ("Unknown", 0)

/-- One element of `payments_list`. -/
structure Payment where
  source_account_id : String
  destination_account_id : String
  amount : ℚ
  source_bank : String
  source_bank_id : ℕ
  destination_bank : String
  destination_bank_id : ℕ
  deriving Repr, DecidableEq

/-- Step 10 greedy matching loop.  The fuel argument makes the recursion
structural: each iteration subtracts `min` of the two head amounts, so at
least one of the two post-subtraction amounts is zero (hence at most
`0.01`) and at least one queue index advances; `s.length + d.length` steps
therefore always suffice, and the branch in which neither head is consumed
cannot be reached. -/
def matchAux (info : String → String × ℕ) : ℕ → List SDItem → List SDItem → List Payment
  | 0, _, _ => []
  | _ + 1, [], _ => []
  | _ + 1, _ :: _, [] => []
  | fuel + 1, s :: ss, d :: ds =>
    let t := min s.amount d.amount
    let pays :=
      if 1/100 < t then
        let sb := info s.account_id
        let db := info d.account_id
        [⟨s.account_id, d.account_id, quantize2 t, sb.1, sb.2, db.1, db.2⟩]
      else []
    let s2 := s.amount - t
    let d2 := d.amount - t
    if s2 ≤ 1/100 then
      if d2 ≤ 1/100 then pays ++ matchAux info fuel ss ds
      else pays ++ matchAux info fuel ss (⟨d.account_id, d2⟩ :: ds)
    else
      pays ++ matchAux info fuel (⟨s.account_id, s2⟩ :: ss) ds

def matchLoop (info : String → String × ℕ) (s d : List SDItem) : List Payment :=
  matchAux info (s.length + d.length) s d

/-- Steps 10 end: the payments list after dropping self-transfers
(same bank id and same account id on both sides). -/
def paymentsList (banks : List Bank) (allocs : List Alloc)
    (accs : List ExtAccount) : List Payment :=
  let tabs := targetAccountBalances banks allocs accs
  (matchLoop (accountBankInfo banks tabs) (surplusAccounts tabs) (deficitAccounts tabs)).filter
    (fun p => !(p.source_bank_id == p.destination_bank_id
      && p.source_account_id == p.destination_account_id))

/-- The successful payload of the apply endpoint. -/
structure ApplyPlan where
  external_accounts_count : ℕ
  total_balance : ℚ
  target_bank_amounts : List TargetEntry
  target_account_balances : List AccountTarget
  payments_list : List Payment
  deriving Repr, DecidableEq

/-- The four distinguishable outcomes of the apply endpoint. -/
inductive ApplyResult
  | noAccounts
  | singleBank (code : String)
  | validationError (msg : String)
  | plan (p : ApplyPlan)
  deriving Repr, DecidableEq

/-- `apply_balance_allocations`: the full computation of the apply
endpoint, from the fetched snapshot, the banks table and the client's
allocation rows. -/
def apply_balance_allocations (banks : List Bank) (allocs : List Alloc)
    (accs : List ExtAccount) : ApplyResult :=
  if (validAccounts accs).isEmpty then .noAccounts
  else if (applyBankCodes accs).length = 1 then
    .singleBank ((applyBankCodes accs).headD "")
  else if 100 < applyTotalShare banks allocs accs then
    .validationError "Сумма целевых долей превышает 100%"
  else if (emptyShareBanks banks allocs accs).isEmpty
      && decide (applyTotalShare banks allocs accs ≠ 100) then
    .validationError "Все целевые доли заданы, но их сумма не равна 100%"
  else if 1 < (emptyShareBanks banks allocs accs).length then
    .validationError "Более одного банка без целевой доли"
  else
    .plan ⟨(validAccounts accs).length, total_balance accs,
      targetBankAmounts banks allocs accs,
      targetAccountBalances banks allocs accs,
      paymentsList banks allocs accs⟩

/-! ## `get_external_accounts_for_client` (`src/services/account_service.py`)

The HTTP world is modelled as an oracle of outcomes, one `BankWorld` per
bank: the outcome of the initial consent request (made only when no active
stored consent is found), of the first account-list fetch, and — on a 403 —
of the consent refresh request and of the single retried fetch.  Every
exception the Python code can see is caught inside the per-bank loop body,
so per-bank outcomes are data, never aborts.  Alongside the produced
entries, a `Trace` records the externally visible actions the claims are
about. -/

/-- Outcome of a `POST account-consents/request` call.  `success` is an
HTTP 200/201 response together with the consent id extracted from its
payload (`none` when no recognised field carries one); `httpError` is any
other status; `exn` is an exception raised during the call. -/
inductive ConsentReqOutcome
  | success (consentId : Option String)
  | httpError (status : ℕ)
  | exn (msg : String)
  deriving Repr, DecidableEq

/-- Outcome of a `GET accounts` call.  `success` carries the returned
account list, each account paired with the result of its balance
sub-fetch (`none` when that sub-fetch failed in any way or carried no
amount); `forbidden` is HTTP 403; `httpError` is any status other than
200 and 403; the remaining constructors are the exception classes caught
by the per-bank handlers. -/
inductive FetchOutcome
  | success (accounts : List (AccountObj × Option String))
  | forbidden
  | httpError (status : ℕ)
  | timeout
  | connectionError (msg : String)
  | exn (msg : String)
  deriving Repr, DecidableEq

/-- The oracle of external outcomes for one bank in one aggregation call. -/
structure BankWorld where
  consentReq : ConsentReqOutcome
  firstFetch : FetchOutcome
  refreshReq : ConsentReqOutcome
  retryFetch : FetchOutcome
  deriving Repr, DecidableEq

/-- Externally visible actions performed while processing one bank. -/
structure Trace where
  consentRequests : ℕ
  refreshRequests : ℕ
  fetchConsents : List String
  markedExpired : Bool
  deriving Repr, DecidableEq

/-- Result of `scalar_one_or_none` on the consent query: a single row,
no row, or the `MultipleResultsFound` exception. -/
inductive LookupResult
  | found (c : StoredConsent)
  | missing
  | multipleRows
  deriving Repr, DecidableEq

/-- The stored-consent query of the aggregator: rows with
`client_id_external == client`, `bank_id == bank.id` and
`status == "active"`, fed to `scalar_one_or_none`. -/
def lookupConsent (db : List StoredConsent) (client : String) (bankId : ℕ) : LookupResult :=
  match db.filter (fun c => c.client_id_external == client
      && c.bank_id == bankId && c.status == "active") with
  | [] => .missing
  | [c] => .found c
  | _ => .multipleRows

/-- An entry carrying account data (error field `None`). -/
def accountEntry (b : Bank) (a : AccountObj × Option String) : ExtAccount :=
  ⟨b.code, bankDisplayName b, some a.1, a.2, none⟩

/-- An entry carrying a structured error (account and balance `None`). -/
def errorEntry (b : Bank) (msg : String) : ExtAccount :=
  ⟨b.code, bankDisplayName b, none, none, some msg⟩

/-- The entries and trace produced for one external bank. -/
def bankEntries (db : List StoredConsent) (tok : Option String)
    (w : BankWorld) (b : Bank) (client : String) : List ExtAccount × Trace :=
  match tok with
  | none => ([errorEntry b "Token not available"], ⟨0, 0, [], false⟩)
  | some _ =>
    match lookupConsent db client b.id with
    | .multipleRows =>
      ([errorEntry b "Error: Multiple rows were found when one or none was required"],
        ⟨0, 0, [], false⟩)
    | lr =>
      let consentFound := match lr with | .found _ => true | _ => false
      let cid? : Option String :=
        match lr with
        | .found c => some c.consent_id
        | _ =>
          match w.consentReq with
          | .success id? => id?
          | _ => none
      let reqs : ℕ := if consentFound then 0 else 1
      match cid? with
      | none => ([errorEntry b "CONSENT_REQUIRED"], ⟨reqs, 0, [], false⟩)
      | some cid =>
        match w.firstFetch with
        | .success accs => (accs.map (accountEntry b), ⟨reqs, 0, [cid], false⟩)
        | .forbidden =>
          let marked := consentFound
          match w.refreshReq with
          | .success (some nid) =>
            match w.retryFetch with
            | .success accs2 =>
              (accs2.map (accountEntry b), ⟨reqs, 1, [cid, nid], marked⟩)
            | _ => ([errorEntry b "CONSENT_REQUIRED"], ⟨reqs, 1, [cid, nid], marked⟩)
          | _ => ([errorEntry b "CONSENT_REQUIRED"], ⟨reqs, 1, [cid], marked⟩)
        | .httpError s => ([errorEntry b ("HTTP " ++ toString s)], ⟨reqs, 0, [cid], false⟩)
        | .timeout => ([errorEntry b "Timeout"], ⟨reqs, 0, [cid], false⟩)
        | .connectionError m =>
          ([errorEntry b ("Connection error: " ++ m)], ⟨reqs, 0, [cid], false⟩)
        | .exn m => ([errorEntry b ("Error: " ++ m)], ⟨reqs, 0, [cid], false⟩)

/-- The `continue` guard of the bank loop: a bank with a falsy code or a
falsy `api_url` is skipped without producing any entry. -/
def bankConfigured (b : Bank) : Bool :=
  b.code ≠ "" && strTruthy b.api_url

/-- `get_external_accounts_for_client`: entries of every configured
external bank, concatenated in table order.  `tokens` models
`app_state_tokens.get(code, ...).get("token")`. -/
def get_external_accounts_for_client (banks : List Bank) (db : List StoredConsent)
    (tokens : String → Option String) (world : String → BankWorld)
    (client : String) : List ExtAccount :=
  ((banks.filter (·.external)).filter bankConfigured).flatMap
    (fun b => (bankEntries db (tokens b.code) (world b.code) b client).1)

/-! ## The interbank consent gate of `get_accounts` (`src/api/accounts.py`) -/

/-- Modelled from the spec: `ConsentService.check_consent` is not under
`src/` — only its caller `get_accounts` is.  Per spec section 4.1,
`checkConsent` returns an active, non-expired consent granted to the
requesting party for the client whose permission set is a superset of the
required permissions, and otherwise none; an expired consent whose stored
status still reads "active" is treated as absent. -/
def check_consent (db : List StoredConsent) (now : ℤ) (client requestingBank : String)
    (required : List String) : Option StoredConsent :=
  db.find? (fun c => c.client_id_external == client
    && c.granted_to == requestingBank
    && c.status == "active"
    && decide (now < c.expiration_date_time)
    && required.all (fun p => p ∈ c.permissions))

/-- The distinguishable outcomes of the access gate of `get_accounts`. -/
inductive AccountsGate
  | badRequest
  | consentRequired
  | unauthorized
  | proceed (clientId : String)
  deriving Repr, DecidableEq

/-- The gate at the top of `get_accounts`: interbank callers (truthy
`x-requesting-bank` header) must name a client and hold a checkable
consent for `ReadAccountsDetail`, otherwise the request fails with 403
CONSENT_REQUIRED; own clients need only an authenticated session. -/
def get_accounts_gate (db : List StoredConsent) (now : ℤ)
    (xRequestingBank clientId currentClient : Option String) : AccountsGate :=
  if strTruthy xRequestingBank then
    if !strTruthy clientId then .badRequest
    else
      match check_consent db now (clientId.getD "") (xRequestingBank.getD "")
          ["ReadAccountsDetail"] with
      | none => .consentRequired
      | some _ => .proceed (clientId.getD "")
  else
    match currentClient with
    | none => .unauthorized
    | some c => .proceed c

/-! ## `calculate_bank_balances` (`src/api/balance_allocations.py`, lines 126-167) -/

/-- The filter of `calculate_bank_balances`: truthy bank code, an account
object, and — when the requested account type is truthy — a matching
(case-insensitive) `accountSubType`. -/
def calcIncluded (account_type : String) (a : ExtAccount) : Bool :=
  a.bank_code ≠ "" && a.account.isSome &&
    (account_type == "" ||
      ((a.account.map (·.accountSubType)).getD "").toLower == account_type.toLower)

/-- `str(acc_data.get("balance", "0"))` at the `calculate_bank_balances`
site: the "balance" key is always present in produced entries (possibly
None), and `str(None)` is the string "None"; there is no falsy check
before parsing here. -/
def calcBalanceStr : Option String → String
  | none => "None"
  | some s => s

/-- `bank_balances[bank_code] += balance` over an association list. -/
def addToBank (m : List (String × ℚ)) (code : String) (v : ℚ) : List (String × ℚ) :=
  if m.any (fun p => p.1 == code) then
    m.map (fun p => if p.1 == code then (p.1, p.2 + v) else p)
  else m ++ [(code, v)]

/-- The accumulation loop of `calculate_bank_balances`.  `Decimal` on an
unparsable string (including "None" from an absent balance) raises
`decimal.InvalidOperation`; the site's `except (ValueError, TypeError)`
does not catch it (it is an `ArithmeticError`), so the exception aborts
the whole loop and propagates to the caller — the
`balance = Decimal("0")` fallback and its "Invalid balance" warning are
unreachable for parse failures. -/
def calcBalancesLoop (account_type : String) :
    List ExtAccount → List (String × ℚ) → PyResult (List (String × ℚ))
  | [], m => .ok m
  | a :: rest, m =>
    if calcIncluded account_type a then
      match parseDecimal? (calcBalanceStr a.balance) with
      | some v => calcBalancesLoop account_type rest (addToBank m a.bank_code v)
      | none => .raised ("InvalidOperation: " ++ calcBalanceStr a.balance)
    else calcBalancesLoop account_type rest m

/-- `calculate_bank_balances`: per-bank balance totals of the snapshot,
or the uncaught exception raised by the first unparsable balance. -/
def calculate_bank_balances (accs : List ExtAccount) (account_type : String) :
    PyResult (List (String × ℚ)) :=
  calcBalancesLoop account_type accs []

/-- `sum(bank_balances.values())`. -/
def balancesValuesSum (m : List (String × ℚ)) : ℚ :=
  (m.map Prod.snd).sum

/-- The spec's step 5 of `computePlan` (section 4.3), stated in its own
words for comparison with the code: order the counterparties, give every
one but the last `round(total * share / 100, 2)`, and give the last
`total` minus the accumulated sum of the others. -/
def specTargetAmounts (total : ℚ) (share : String → ℚ) (codes : List String) :
    List (String × ℚ) :=
  match codes.getLast? with
  | none => []
  | some lastCode =>
    let front := codes.dropLast.map (fun c => (c, quantize2 (total * share c / 100)))
    front ++ [(lastCode, total - (front.map Prod.snd).sum)]

/-- The plan of a successful apply computation, and a default otherwise. -/
def planOf : ApplyResult → ApplyPlan
  | .plan p => p
  | _ => ⟨0, 0, [], [], []⟩

/-- Whether the apply computation failed with an HTTP 400 validation
error. -/
def isValidationError : ApplyResult → Bool
  | .validationError _ => true
  | _ => false

/-- The one situation in which a configured bank with a token contributes
zero entries: an account-list fetch succeeded and returned an empty
account list (directly, or on the single retry after a 403). -/
def emptyFetchSuccess (w : BankWorld) : Prop :=
  w.firstFetch = .success [] ∨
    (w.firstFetch = .forbidden ∧
      ∃ nid, w.refreshReq = .success (some nid) ∧ w.retryFetch = .success [])

/-! ## Helper lemmas -/

theorem roundHalfEven_ge_one {x : ℚ} (hx : 1 < x) : 1 ≤ roundHalfEven x := by
  have hfl : (1 : ℤ) ≤ ⌊x⌋ := by
    rw [Int.le_floor]; exact_mod_cast hx.le
  unfold roundHalfEven
  dsimp only
  split
  · exact hfl
  · split
    · omega
    · split
      · exact hfl
      · omega

theorem quantize2_pos {x : ℚ} (hx : 1/100 < x) : 0 < quantize2 x := by
  have h1 : (1 : ℚ) < x * 100 := by nlinarith
  have h2 : (1 : ℤ) ≤ roundHalfEven (x * 100) := roundHalfEven_ge_one h1
  have h3 : (1 : ℚ) ≤ (roundHalfEven (x * 100) : ℚ) := by exact_mod_cast h2
  unfold quantize2
  positivity

theorem mem_dedupAux {α : Type} [DecidableEq α] (c : α) :
    ∀ (l seen : List α), c ∈ dedupAux seen l ↔ c ∈ l ∧ c ∉ seen := by
  intro l
  induction l with
  | nil => intro seen; simp [dedupAux]
  | cons d cs ih =>
    intro seen
    by_cases hd : d ∈ seen
    · simp only [dedupAux, if_pos hd, ih, List.mem_cons]
      constructor
      · rintro ⟨h1, h2⟩; exact ⟨Or.inr h1, h2⟩
      · rintro ⟨h1 | h1, h2⟩
        · exact absurd (h1 ▸ hd) h2
        · exact ⟨h1, h2⟩
    · simp only [dedupAux, if_neg hd, List.mem_cons, ih]
      by_cases hcd : c = d
      · subst hcd; simp [hd]
      · simp [hcd]

theorem mem_dedupFirst {α : Type} [DecidableEq α] (c : α) (l : List α) :
    c ∈ dedupFirst l ↔ c ∈ l := by
  simp [dedupFirst, mem_dedupAux]

theorem nodup_dedupAux {α : Type} [DecidableEq α] :
    ∀ (l seen : List α), (dedupAux seen l).Nodup := by
  intro l
  induction l with
  | nil => intro seen; simp [dedupAux]
  | cons d cs ih =>
    intro seen
    by_cases hd : d ∈ seen
    · simpa [dedupAux, if_pos hd] using ih seen
    · simp only [dedupAux, if_neg hd, List.nodup_cons]
      refine ⟨fun hmem => ?_, ih _⟩
      rw [mem_dedupAux] at hmem
      exact hmem.2 (List.mem_cons_self _ _)

theorem nodup_dedupFirst {α : Type} [DecidableEq α] (l : List α) :
    (dedupFirst l).Nodup :=
  nodup_dedupAux l []

theorem mem_insertStr (c x : String) :
    ∀ l : List String, c ∈ insertStr x l ↔ c = x ∨ c ∈ l := by
  intro l
  induction l with
  | nil => simp [insertStr]
  | cons y ys ih =>
    by_cases h : y < x
    · simp only [insertStr, if_pos h, List.mem_cons, ih]
      try tauto
    · simp only [insertStr, if_neg h, List.mem_cons]
      try tauto

theorem insertStr_ne_nil (x : String) (l : List String) : insertStr x l ≠ [] := by
  cases l with
  | nil => simp [insertStr]
  | cons y ys =>
    by_cases h : y < x <;> simp [insertStr, h]

theorem mem_sortStrs (c : String) (l : List String) :
    c ∈ sortStrs l ↔ c ∈ l := by
  induction l with
  | nil => simp [sortStrs]
  | cons x xs ih =>
    simp only [sortStrs, List.foldr_cons, mem_insertStr, List.mem_cons]
    rw [show List.foldr insertStr [] xs = sortStrs xs from rfl] at *
    rw [ih]

theorem sortStrs_ne_nil {l : List String} (h : l ≠ []) : sortStrs l ≠ [] := by
  cases l with
  | nil => exact absurd rfl h
  | cons x xs => exact insertStr_ne_nil x _

theorem length_insertStr (x : String) :
    ∀ l : List String, (insertStr x l).length = l.length + 1 := by
  intro l
  induction l with
  | nil => simp [insertStr]
  | cons y ys ih =>
    by_cases h : y < x <;> simp [insertStr, h, ih]

theorem length_sortStrs (l : List String) : (sortStrs l).length = l.length := by
  induction l with
  | nil => simp [sortStrs]
  | cons x xs ih =>
    simp only [sortStrs, List.foldr_cons, length_insertStr, List.length_cons]
    rw [show List.foldr insertStr [] xs = sortStrs xs from rfl, ih]

/-- Case analysis of the entries one bank contributes: at least one entry
is produced unless an account-list fetch succeeded with an empty list, and
every entry either carries account data with a clear error field or no
account data and a structured error. -/
theorem bankEntries_shape (db : List StoredConsent) (tok : Option String)
    (w : BankWorld) (b : Bank) (client : String) :
    (1 ≤ (bankEntries db tok w b client).1.length ∨ emptyFetchSuccess w)
    ∧ (∀ e ∈ (bankEntries db tok w b client).1,
        (e.account.isSome = true ∧ e.error = none)
        ∨ (e.account = none ∧ ∃ m, e.error = some m)) := by
  unfold bankEntries
  cases tok with
  | none => simp [errorEntry]
  | some t =>
    cases hlr : lookupConsent db client b.id with
    | multipleRows => simp [errorEntry]
    | missing =>
      cases hcr : w.consentReq with
      | success id? =>
        cases id? with
        | none => simp [errorEntry]
        | some cid =>
          cases hf : w.firstFetch with
          | success accs =>
            cases accs with
            | nil => simp [emptyFetchSuccess, hf, accountEntry]
            | cons a rest =>
              refine ⟨Or.inl (by simp), fun e he => ?_⟩
              simp only [List.mem_map] at he
              obtain ⟨p, hp, rfl⟩ := he
              exact Or.inl ⟨rfl, rfl⟩
          | forbidden =>
            cases hr : w.refreshReq with
            | success nid? =>
              cases nid? with
              | none => simp [errorEntry]
              | some nid =>
                cases hrf : w.retryFetch with
                | success accs2 =>
                  cases accs2 with
                  | nil =>
                    refine ⟨Or.inr (Or.inr ⟨hf, nid, hr, hrf⟩), ?_⟩
                    simp
                  | cons a rest =>
                    refine ⟨Or.inl (by simp), fun e he => ?_⟩
                    simp only [List.mem_map] at he
                    obtain ⟨p, hp, rfl⟩ := he
                    exact Or.inl ⟨rfl, rfl⟩
                | forbidden => simp [errorEntry]
                | httpError s => simp [errorEntry]
                | timeout => simp [errorEntry]
                | connectionError m => simp [errorEntry]
                | exn m => simp [errorEntry]
            | httpError s => simp [errorEntry]
            | exn m => simp [errorEntry]
          | httpError s => simp [errorEntry]
          | timeout => simp [errorEntry]
          | connectionError m => simp [errorEntry]
          | exn m => simp [errorEntry]
      | httpError s => simp [errorEntry]
      | exn m => simp [errorEntry]
    | found c =>
      cases hf : w.firstFetch with
      | success accs =>
        cases accs with
        | nil => simp [emptyFetchSuccess, hf, accountEntry]
        | cons a rest =>
          refine ⟨Or.inl (by simp), fun e he => ?_⟩
          simp only [List.mem_map] at he
          obtain ⟨p, hp, rfl⟩ := he
          exact Or.inl ⟨rfl, rfl⟩
      | forbidden =>
        cases hr : w.refreshReq with
        | success nid? =>
          cases nid? with
          | none => simp [errorEntry]
          | some nid =>
            cases hrf : w.retryFetch with
            | success accs2 =>
              cases accs2 with
              | nil =>
                refine ⟨Or.inr (Or.inr ⟨hf, nid, hr, hrf⟩), ?_⟩
                simp
              | cons a rest =>
                refine ⟨Or.inl (by simp), fun e he => ?_⟩
                simp only [List.mem_map] at he
                obtain ⟨p, hp, rfl⟩ := he
                exact Or.inl ⟨rfl, rfl⟩
            | forbidden => simp [errorEntry]
            | httpError s => simp [errorEntry]
            | timeout => simp [errorEntry]
            | connectionError m => simp [errorEntry]
            | exn m => simp [errorEntry]
        | httpError s => simp [errorEntry]
        | exn m => simp [errorEntry]
      | httpError s => simp [errorEntry]
      | timeout => simp [errorEntry]
      | connectionError m => simp [errorEntry]
      | exn m => simp [errorEntry]

theorem dedupFirst_ne_nil {α : Type} [DecidableEq α] {l : List α} (h : l ≠ []) :
    dedupFirst l ≠ [] := by
  cases l with
  | nil => exact absurd rfl h
  | cons x xs => simp [dedupFirst, dedupAux]

/-- One-step unfolding of the target loop at a covered code. -/
theorem targetLoop_cons_some (banks : List Bank) (share : String → ℚ)
    (counts : String → ℕ) (total : ℚ) (n : ℕ) (c : String) (cs : List String)
    (i : ℕ) (acc : ℚ) (b : Bank) (hb : lookupBank banks c = some b) :
    targetLoop banks share counts total n (c :: cs) i acc
      = if i < n - 1 then
          ⟨b.id, c, bankDisplayName b, share c,
            quantize2 (total * share c / 100), counts c⟩ ::
            targetLoop banks share counts total n cs (i + 1)
              (acc + quantize2 (total * share c / 100))
        else
          ⟨b.id, c, bankDisplayName b, share c, total - acc, counts c⟩ ::
            targetLoop banks share counts total n cs (i + 1) acc := by
  have h0 : targetLoop banks share counts total n (c :: cs) i acc
      = match lookupBank banks c with
        | none => targetLoop banks share counts total n cs (i + 1) acc
        | some b =>
          if i < n - 1 then
            ⟨b.id, c, bankDisplayName b, share c,
              quantize2 (total * share c / 100), counts c⟩ ::
              targetLoop banks share counts total n cs (i + 1)
                (acc + quantize2 (total * share c / 100))
          else
            ⟨b.id, c, bankDisplayName b, share c, total - acc, counts c⟩ ::
              targetLoop banks share counts total n cs (i + 1) acc := rfl
  rw [h0, hb]

/-- Summing the emitted target amounts: as long as every remaining code has
a bank row and the suffix really ends at index `n - 1`, the loop emits
amounts summing to `total - acc`. -/
theorem targetLoop_sum (banks : List Bank) (share : String → ℚ)
    (counts : String → ℕ) (total : ℚ) (n : ℕ) :
    ∀ (cs : List String) (i : ℕ) (acc : ℚ), cs ≠ [] → i + cs.length = n →
      (∀ c ∈ cs, (lookupBank banks c).isSome) →
      ((targetLoop banks share counts total n cs i acc).map (·.target_amount)).sum
        = total - acc := by
  intro cs
  induction cs with
  | nil => intro i acc h _ _; exact absurd rfl h
  | cons c cs' ih =>
    intro i acc _ hlen hcov
    obtain ⟨b, hb⟩ := Option.isSome_iff_exists.mp (hcov c (List.mem_cons_self _ _))
    rw [targetLoop_cons_some banks share counts total n c cs' i acc b hb]
    cases cs' with
    | nil =>
      have hni : ¬ i < n - 1 := by
        simp only [List.length_cons, List.length_nil] at hlen; omega
      rw [if_neg hni]
      show (List.map _ [_]).sum = total - acc
      simp
    | cons c2 cs'' =>
      have hi : i < n - 1 := by
        simp only [List.length_cons] at hlen; omega
      have hrec := ih (i + 1) (acc + quantize2 (total * share c / 100))
        (by simp) (by simp only [List.length_cons] at hlen ⊢; omega)
        (fun x hx => hcov x (List.mem_cons_of_mem _ hx))
      rw [if_pos hi]
      rw [List.map_cons, List.sum_cons, hrec]
      ring

/-- Shape of the emitted entries: every code except the last (all covered
by a bank row) receives the rounded share of the total, and the last
receives `total` minus the accumulator and the rounded front amounts. -/
theorem targetLoop_spec (banks : List Bank) (share : String → ℚ)
    (counts : String → ℕ) (total : ℚ) (n : ℕ) :
    ∀ (cs : List String) (i : ℕ) (acc : ℚ), cs ≠ [] → i + cs.length = n →
      (∀ c ∈ cs, (lookupBank banks c).isSome) →
      (targetLoop banks share counts total n cs i acc).map
          (fun e => (e.bank_code, e.target_amount))
        = (cs.dropLast.map (fun c => (c, quantize2 (total * share c / 100))))
          ++ [(cs.getLast?.getD "",
                total - acc
                  - ((cs.dropLast.map
                      (fun c => quantize2 (total * share c / 100))).sum))] := by
  intro cs
  induction cs with
  | nil => intro i acc h _ _; exact absurd rfl h
  | cons c cs' ih =>
    intro i acc _ hlen hcov
    obtain ⟨b, hb⟩ := Option.isSome_iff_exists.mp (hcov c (List.mem_cons_self _ _))
    rw [targetLoop_cons_some banks share counts total n c cs' i acc b hb]
    cases cs' with
    | nil =>
      have hni : ¬ i < n - 1 := by
        simp only [List.length_cons, List.length_nil] at hlen; omega
      rw [if_neg hni]
      show List.map _ [_] = _
      simp
    | cons c2 cs'' =>
      have hi : i < n - 1 := by
        simp only [List.length_cons] at hlen; omega
      have hrec := ih (i + 1) (acc + quantize2 (total * share c / 100))
        (by simp) (by simp only [List.length_cons] at hlen ⊢; omega)
        (fun x hx => hcov x (List.mem_cons_of_mem _ hx))
      rw [if_pos hi, List.map_cons, hrec]
      rw [List.getLast?_cons_cons, List.dropLast_cons₂, List.map_cons,
        List.cons_append, List.map_cons, List.sum_cons]
      have harith : total - (acc + quantize2 (total * share c / 100))
          - (List.map (fun c => quantize2 (total * share c / 100))
              (c2 :: cs'').dropLast).sum
          = total - acc - (quantize2 (total * share c / 100)
            + (List.map (fun c => quantize2 (total * share c / 100))
                (c2 :: cs'').dropLast).sum) := by ring
      rw [harith]

/-- Destructuring a successful apply computation. -/
theorem apply_plan_eq (banks : List Bank) (allocs : List Alloc)
    (accs : List ExtAccount) (p : ApplyPlan)
    (hp : apply_balance_allocations banks allocs accs = .plan p) :
    p = ⟨(validAccounts accs).length, total_balance accs,
          targetBankAmounts banks allocs accs,
          targetAccountBalances banks allocs accs,
          paymentsList banks allocs accs⟩
    ∧ ¬ (validAccounts accs).isEmpty = true
    ∧ (applyBankCodes accs).length ≠ 1 := by
  unfold apply_balance_allocations at hp
  split_ifs at hp with h1 h2 h3 h4 h5
  injection hp with h
  exact ⟨h.symm, h1, h2⟩

/-- Every payment emitted by the greedy matching loop is the two-decimal
rounding of a transfer amount strictly above the epsilon. -/
theorem matchAux_amounts (info : String → String × ℕ) :
    ∀ (fuel : ℕ) (s d : List SDItem), ∀ pay ∈ matchAux info fuel s d,
      ∃ t : ℚ, 1/100 < t ∧ pay.amount = quantize2 t := by
  intro fuel
  induction fuel with
  | zero => intro s d pay h; simp [matchAux] at h
  | succ f ih =>
    intro s d pay h
    match s, d with
    | [], _ => simp [matchAux] at h
    | _ :: _, [] => simp [matchAux] at h
    | s0 :: ss, d0 :: ds =>
      have h0 : matchAux info (f + 1) (s0 :: ss) (d0 :: ds)
          = (if 1/100 < min s0.amount d0.amount then
              [⟨s0.account_id, d0.account_id, quantize2 (min s0.amount d0.amount),
                (info s0.account_id).1, (info s0.account_id).2,
                (info d0.account_id).1, (info d0.account_id).2⟩]
            else []) ++
            (if s0.amount - min s0.amount d0.amount ≤ 1/100 then
              if d0.amount - min s0.amount d0.amount ≤ 1/100 then
                matchAux info f ss ds
              else
                matchAux info f ss
                  (⟨d0.account_id, d0.amount - min s0.amount d0.amount⟩ :: ds)
            else
              matchAux info f
                (⟨s0.account_id, s0.amount - min s0.amount d0.amount⟩ :: ss) ds) := by
        rw [matchAux]
        split
        · split
          · rfl
          · rfl
        · rfl
      rw [h0] at h
      rw [List.mem_append] at h
      rcases h with h | h
      · split at h
        case isTrue ht =>
          rw [List.mem_singleton] at h
          exact ⟨min s0.amount d0.amount, ht, by rw [h]⟩
        case isFalse => simp at h
      · split at h
        · split at h
          · exact ih ss ds pay h
          · exact ih ss _ pay h
        · exact ih _ ds pay h

/-! ## Claim theorems -/

/-- **C8** (code bug): the explicit cache invalidation for a client is
claimed to delete every cache entry of that client including page-keyed
entries, but the Redis pattern `ns:*:client:cid` has no trailing
wildcard, so a key of the form `ns:operation:client:cid:page:n` does not
match it and survives the invalidation, while the page-less key of the
same client is deleted. -/
theorem c8_invalidation_misses_page_keys :
    invalidate_client_cache
      [client_key_builder "banking-box" "get_balance_allocations" "CLIENT123",
       client_page_key_builder "banking-box" "get_external_payment_history" "CLIENT123" 1]
      "banking-box" "CLIENT123"
      = [client_page_key_builder "banking-box" "get_external_payment_history" "CLIENT123" 1]
    ∧ globMatch (invalidatePattern "banking-box" "CLIENT123")
        (client_page_key_builder "banking-box" "get_external_payment_history" "CLIENT123" 1)
        = false
    ∧ globMatch (invalidatePattern "banking-box" "CLIENT123")
        (client_key_builder "banking-box" "get_balance_allocations" "CLIENT123") = true := by
  decide

/-- **C7** (counterexample): the stored-consent query of the aggregator
filters only on client, bank and status "active" — a consent granted to a
party other than the aggregator's own identity (here "SOMEBANK", with the
aggregator acting as "VBANK") is found by the lookup and its external
reference id is the one used for the account fetch. -/
theorem c7_counterexample :
    (lookupConsent
        [⟨"cons-evil", "CL1", 1, "SOMEBANK", [], "active", 100⟩] "CL1" 1
      = .found ⟨"cons-evil", "CL1", 1, "SOMEBANK", [], "active", 100⟩)
    ∧ ("SOMEBANK" ≠ "VBANK")
    ∧ ((bankEntries
          [⟨"cons-evil", "CL1", 1, "SOMEBANK", [], "active", 100⟩]
          (some "tok")
          ⟨.success none, .success [(⟨"acc-1", "Checking"⟩, some "10")],
            .success none, .success []⟩
          ⟨1, "ABANK", some "A Bank", some "http://abank", true⟩
          "CL1").2.fetchConsents = ["cons-evil"]) := by
  decide

/-- **C7** (amended): the aggregator reuses a stored consent's external
reference id only if that consent is scoped to the client, to the
counterparty, and is stored with status "active"; the grantee identity is
not part of the lookup filter. -/
theorem c7_lookup_scope (db : List StoredConsent) (client : String) (bankId : ℕ)
    (c : StoredConsent) (h : lookupConsent db client bankId = .found c) :
    c ∈ db ∧ c.client_id_external = client ∧ c.bank_id = bankId ∧ c.status = "active" := by
  unfold lookupConsent at h
  split at h
  · exact absurd h (by simp)
  case _ c' heq =>
    have hc : c' = c := by
      injection h with h'
    subst hc
    have hmem : c' ∈ db.filter (fun c => c.client_id_external == client
        && c.bank_id == bankId && c.status == "active") := by
      rw [heq]; exact List.mem_singleton.mpr rfl
    rw [List.mem_filter] at hmem
    obtain ⟨hdb, hprops⟩ := hmem
    simp only [Bool.and_eq_true, beq_iff_eq] at hprops
    exact ⟨hdb, hprops.1.1, hprops.1.2, hprops.2⟩
  · exact absurd h (by simp)

/-- Witness for `c7_lookup_scope` at a concrete store. -/
theorem c7_lookup_scope_witness :
    let c : StoredConsent := ⟨"cons-1", "CL9", 7, "VBANK", [], "active", 100⟩
    c ∈ [c] ∧ c.client_id_external = "CL9" ∧ c.bank_id = 7 ∧ c.status = "active" :=
  c7_lookup_scope [⟨"cons-1", "CL9", 7, "VBANK", [], "active", 100⟩] "CL9" 7
    ⟨"cons-1", "CL9", 7, "VBANK", [], "active", 100⟩ (by decide)

/-- **C5** (counterexample): a configured counterparty whose account-list
fetch succeeds with an empty account list contributes zero entries to the
aggregation result, so the caller does not receive an entry for every
configured counterparty. -/
theorem c5_counterexample :
    (bankConfigured ⟨1, "ABANK", some "A Bank", some "http://abank", true⟩ = true)
    ∧ get_external_accounts_for_client
        [⟨1, "ABANK", some "A Bank", some "http://abank", true⟩]
        [⟨"cons-1", "CL1", 1, "VBANK", [], "active", 100⟩]
        (fun _ => some "tok")
        (fun _ => ⟨.success none, .success [], .success none, .success []⟩)
        "CL1" = [] := by
  decide

/-- **C5** (amended): per-counterparty failures during aggregation are
captured as data and never abort the call — every entry a configured
counterparty produces appears in the merged list, every entry carries
either account data or a structured error, a missing token yields exactly
one "Token not available" error entry, and each configured counterparty
contributes at least one entry unless its account-list fetch succeeded
with an empty account list (in which case it contributes zero entries). -/
theorem c5_failure_isolation (banks : List Bank) (db : List StoredConsent)
    (tokens : String → Option String) (world : String → BankWorld)
    (client : String) (b : Bank) (hb : b ∈ banks)
    (hext : b.external = true) (hcfg : bankConfigured b = true) :
    (∀ e ∈ (bankEntries db (tokens b.code) (world b.code) b client).1,
        e ∈ get_external_accounts_for_client banks db tokens world client)
    ∧ (1 ≤ (bankEntries db (tokens b.code) (world b.code) b client).1.length
        ∨ emptyFetchSuccess (world b.code))
    ∧ (∀ e ∈ (bankEntries db (tokens b.code) (world b.code) b client).1,
        (e.account.isSome = true ∧ e.error = none)
        ∨ (e.account = none ∧ ∃ m, e.error = some m))
    ∧ (tokens b.code = none →
        (bankEntries db (tokens b.code) (world b.code) b client).1
          = [errorEntry b "Token not available"]) := by
  refine ⟨?_, (bankEntries_shape db (tokens b.code) (world b.code) b client).1,
    (bankEntries_shape db (tokens b.code) (world b.code) b client).2, ?_⟩
  · intro e he
    unfold get_external_accounts_for_client
    rw [List.mem_flatMap]
    refine ⟨b, ?_, he⟩
    rw [List.mem_filter, List.mem_filter]
    exact ⟨⟨hb, hext⟩, hcfg⟩
  · intro htok
    rw [htok]
    rfl

/-- Witness for `c5_failure_isolation`: one configured counterparty with
no stored token still yields its single typed error entry. -/
theorem c5_failure_isolation_witness :
    let b : Bank := ⟨1, "ABANK", some "A Bank", some "http://abank", true⟩
    let w : BankWorld := ⟨.success none, .success [], .success none, .success []⟩
    (∀ e ∈ (bankEntries [] none w b "CL1").1,
        e ∈ get_external_accounts_for_client [b] [] (fun _ => none) (fun _ => w) "CL1")
    ∧ (1 ≤ (bankEntries [] none w b "CL1").1.length ∨ emptyFetchSuccess w)
    ∧ (∀ e ∈ (bankEntries [] none w b "CL1").1,
        (e.account.isSome = true ∧ e.error = none)
        ∨ (e.account = none ∧ ∃ m, e.error = some m))
    ∧ ((none : Option String) = none →
        (bankEntries [] none w b "CL1").1 = [errorEntry b "Token not available"]) :=
  c5_failure_isolation [⟨1, "ABANK", some "A Bank", some "http://abank", true⟩] []
    (fun _ => none) (fun _ => ⟨.success none, .success [], .success none, .success []⟩)
    "CL1" ⟨1, "ABANK", some "A Bank", some "http://abank", true⟩
    (by decide) (by decide) (by decide)

/-- **C6**: on a 403 from the account-list fetch with a stored consent
found, the aggregator marks that consent expired, issues exactly one
fresh consent request (and none before the 403, since the stored consent
was reused), performs at most one retried fetch — with the new reference
id when one was obtained, and no fetch at all otherwise — and records the
CONSENT_REQUIRED error when the refresh or the retry fails. -/
theorem c6_one_shot_refresh (db : List StoredConsent) (tok : String)
    (w : BankWorld) (b : Bank) (client : String) (c : StoredConsent)
    (hfound : lookupConsent db client b.id = .found c)
    (h403 : w.firstFetch = .forbidden) :
    ((bankEntries db (some tok) w b client).2.markedExpired = true)
    ∧ ((bankEntries db (some tok) w b client).2.consentRequests = 0)
    ∧ ((bankEntries db (some tok) w b client).2.refreshRequests = 1)
    ∧ ((bankEntries db (some tok) w b client).2.fetchConsents.length ≤ 2)
    ∧ (∀ nid, w.refreshReq = .success (some nid) →
        (bankEntries db (some tok) w b client).2.fetchConsents = [c.consent_id, nid])
    ∧ (∀ nid, w.refreshReq = .success (some nid) →
        (∀ accs2, w.retryFetch ≠ .success accs2) →
        (bankEntries db (some tok) w b client).1 = [errorEntry b "CONSENT_REQUIRED"])
    ∧ ((∀ nid, w.refreshReq ≠ .success (some nid)) →
        (bankEntries db (some tok) w b client).2.fetchConsents = [c.consent_id]
        ∧ (bankEntries db (some tok) w b client).1
            = [errorEntry b "CONSENT_REQUIRED"]) := by
  unfold bankEntries
  rw [hfound, h403]
  cases hr : w.refreshReq with
  | success nid? =>
    cases nid? with
    | none =>
      refine ⟨rfl, rfl, rfl, by simp, ?_, ?_, ?_⟩
      · intro nid hnid; cases hnid
      · intro nid hnid; cases hnid
      · intro _; exact ⟨rfl, rfl⟩
    | some nid =>
      cases hrf : w.retryFetch with
      | success accs2 =>
        refine ⟨rfl, rfl, rfl, by simp, ?_, ?_, ?_⟩
        · intro nid' hnid; injection hnid with h'; injection h' with h''; rw [h'']
        · intro nid' hnid hfail
          exact absurd rfl (hfail accs2)
        · intro hno; exact absurd rfl (hno nid)
      | forbidden =>
        refine ⟨rfl, rfl, rfl, by simp, ?_, ?_, ?_⟩
        · intro nid' hnid; injection hnid with h'; injection h' with h''; rw [h'']
        · intro nid' hnid hfail; rfl
        · intro hno; exact absurd rfl (hno nid)
      | httpError s =>
        refine ⟨rfl, rfl, rfl, by simp, ?_, ?_, ?_⟩
        · intro nid' hnid; injection hnid with h'; injection h' with h''; rw [h'']
        · intro nid' hnid hfail; rfl
        · intro hno; exact absurd rfl (hno nid)
      | timeout =>
        refine ⟨rfl, rfl, rfl, by simp, ?_, ?_, ?_⟩
        · intro nid' hnid; injection hnid with h'; injection h' with h''; rw [h'']
        · intro nid' hnid hfail; rfl
        · intro hno; exact absurd rfl (hno nid)
      | connectionError m =>
        refine ⟨rfl, rfl, rfl, by simp, ?_, ?_, ?_⟩
        · intro nid' hnid; injection hnid with h'; injection h' with h''; rw [h'']
        · intro nid' hnid hfail; rfl
        · intro hno; exact absurd rfl (hno nid)
      | exn m =>
        refine ⟨rfl, rfl, rfl, by simp, ?_, ?_, ?_⟩
        · intro nid' hnid; injection hnid with h'; injection h' with h''; rw [h'']
        · intro nid' hnid hfail; rfl
        · intro hno; exact absurd rfl (hno nid)
  | httpError s =>
    refine ⟨rfl, rfl, rfl, by simp, ?_, ?_, ?_⟩
    · intro nid hnid; cases hnid
    · intro nid hnid; cases hnid
    · intro _; exact ⟨rfl, rfl⟩
  | exn m =>
    refine ⟨rfl, rfl, rfl, by simp, ?_, ?_, ?_⟩
    · intro nid hnid; cases hnid
    · intro nid hnid; cases hnid
    · intro _; exact ⟨rfl, rfl⟩

/-- Witness for `c6_one_shot_refresh`: a 403 followed by a successful
refresh and a failing retry. -/
theorem c6_one_shot_refresh_witness :
    let b : Bank := ⟨1, "ABANK", some "A Bank", some "http://abank", true⟩
    let c : StoredConsent := ⟨"cons-old", "CL1", 1, "VBANK", [], "active", 100⟩
    let w : BankWorld := ⟨.success none, .forbidden, .success (some "cons-new"), .forbidden⟩
    ((bankEntries [c] (some "tok") w b "CL1").2.markedExpired = true)
    ∧ ((bankEntries [c] (some "tok") w b "CL1").2.consentRequests = 0)
    ∧ ((bankEntries [c] (some "tok") w b "CL1").2.refreshRequests = 1)
    ∧ ((bankEntries [c] (some "tok") w b "CL1").2.fetchConsents.length ≤ 2)
    ∧ (∀ nid, w.refreshReq = .success (some nid) →
        (bankEntries [c] (some "tok") w b "CL1").2.fetchConsents = [c.consent_id, nid])
    ∧ (∀ nid, w.refreshReq = .success (some nid) →
        (∀ accs2, w.retryFetch ≠ .success accs2) →
        (bankEntries [c] (some "tok") w b "CL1").1 = [errorEntry b "CONSENT_REQUIRED"])
    ∧ ((∀ nid, w.refreshReq ≠ .success (some nid)) →
        (bankEntries [c] (some "tok") w b "CL1").2.fetchConsents = [c.consent_id]
        ∧ (bankEntries [c] (some "tok") w b "CL1").1
            = [errorEntry b "CONSENT_REQUIRED"]) :=
  c6_one_shot_refresh [⟨"cons-old", "CL1", 1, "VBANK", [], "active", 100⟩] "tok"
    ⟨.success none, .forbidden, .success (some "cons-new"), .forbidden⟩
    ⟨1, "ABANK", some "A Bank", some "http://abank", true⟩ "CL1"
    ⟨"cons-old", "CL1", 1, "VBANK", [], "active", 100⟩ (by decide) (by decide)

/-- **C9**: the consent check used to gate interbank account access never
returns a consent whose expiration has passed even if its stored status
still reads "active", and when every stored consent that could authorise
the requesting bank for the client has expired, the interbank accounts
request is rejected with the consent-required failure.
`check_consent` is modelled from the spec, its caller from the code. -/
theorem c9_expired_consents_rejected (db : List StoredConsent) (now : ℤ) :
    (∀ (client rb : String) (required : List String) (c : StoredConsent),
        c ∈ db → c.expiration_date_time ≤ now →
        check_consent db now client rb required ≠ some c)
    ∧ (∀ (rb cid : String) (cur : Option String), rb ≠ "" → cid ≠ "" →
        (∀ c ∈ db, c.client_id_external = cid → c.granted_to = rb →
          c.status = "active" → "ReadAccountsDetail" ∈ c.permissions →
          c.expiration_date_time ≤ now) →
        get_accounts_gate db now (some rb) (some cid) cur = .consentRequired) := by
  constructor
  · intro client rb required c _ hexp hsome
    have hp := List.find?_some hsome
    simp only [Bool.and_eq_true, beq_iff_eq, decide_eq_true_eq] at hp
    exact absurd hp.1.2 (not_lt.mpr hexp)
  · intro rb cid cur hrb hcid hall
    unfold get_accounts_gate
    rw [if_pos (by simpa [strTruthy] using hrb)]
    rw [if_neg (by simpa [strTruthy] using hcid)]
    have hnone : check_consent db now cid rb ["ReadAccountsDetail"] = none := by
      cases hfind : check_consent db now cid rb ["ReadAccountsDetail"] with
      | none => rfl
      | some c =>
        have hmem := List.mem_of_find?_eq_some hfind
        have hp := List.find?_some hfind
        simp only [Bool.and_eq_true, beq_iff_eq, decide_eq_true_eq,
          List.all_eq_true] at hp
        have hperm : "ReadAccountsDetail" ∈ c.permissions := by
          have := hp.2 "ReadAccountsDetail" (by simp)
          simpa using this
        have hexp := hall c hmem hp.1.1.1.1 hp.1.1.1.2 hp.1.1.2 hperm
        exact absurd hp.1.2 (not_lt.mpr hexp)
    simp only [Option.getD_some, hnone]

/-- Witness for `c9_expired_consents_rejected`: one consent, expired but
still marked "active", does not authorise the interbank request. -/
theorem c9_expired_consents_rejected_witness :
    let c : StoredConsent :=
      ⟨"cons-1", "CL1", 1, "ABANK", ["ReadAccountsDetail"], "active", 50⟩
    (check_consent [c] 60 "CL1" "ABANK" ["ReadAccountsDetail"] ≠ some c)
    ∧ get_accounts_gate [c] 60 (some "ABANK") (some "CL1") none = .consentRequired := by
  refine ⟨?_, ?_⟩
  · exact (c9_expired_consents_rejected
      [⟨"cons-1", "CL1", 1, "ABANK", ["ReadAccountsDetail"], "active", 50⟩] 60).1
      "CL1" "ABANK" ["ReadAccountsDetail"] _ (by decide) (by decide)
  · exact (c9_expired_consents_rejected
      [⟨"cons-1", "CL1", 1, "ABANK", ["ReadAccountsDetail"], "active", 50⟩] 60).2
      "ABANK" "CL1" none (by decide) (by decide) (by decide)

/-- **C1**: whenever the apply endpoint produces a plan (which requires at
least two distinct counterparties in the snapshot and passing share
validation) and every snapshot bank code has a row in the banks table (as
the aggregator guarantees, since it only emits codes of bank rows), the
per-counterparty target amounts sum exactly to the total balance of the
error-free accounts, and the amounts are exactly the spec's: every
counterparty but the last in sorted order gets
`round(total * share / 100, 2)` and the last gets the remainder. -/
theorem c1_targets_sum_exact (banks : List Bank) (allocs : List Alloc)
    (accs : List ExtAccount) (p : ApplyPlan)
    (hcov : ∀ c ∈ applyBankCodes accs, (lookupBank banks c).isSome)
    (hp : apply_balance_allocations banks allocs accs = .plan p) :
    ((p.target_bank_amounts.map (·.target_amount)).sum = total_balance accs)
    ∧ (p.target_bank_amounts.map (fun e => (e.bank_code, e.target_amount))
        = specTargetAmounts (total_balance accs)
            (shareGet (applyFilledShares banks allocs accs))
            (sortStrs (applyBankCodes accs))) := by
  obtain ⟨hpe, hne, _⟩ := apply_plan_eq banks allocs accs p hp
  subst hpe
  have hvne : validAccounts accs ≠ [] := by
    intro h
    rw [h] at hne
    exact hne rfl
  have hcodes : applyBankCodes accs ≠ [] := by
    unfold applyBankCodes
    apply dedupFirst_ne_nil
    simpa using hvne
  have hsorted : sortStrs (applyBankCodes accs) ≠ [] := sortStrs_ne_nil hcodes
  have hcov' : ∀ c ∈ sortStrs (applyBankCodes accs), (lookupBank banks c).isSome := by
    intro c hc
    exact hcov c ((mem_sortStrs c _).mp hc)
  constructor
  · show ((targetBankAmounts banks allocs accs).map (·.target_amount)).sum = _
    unfold targetBankAmounts
    rw [targetLoop_sum banks _ _ _ _ (sortStrs (applyBankCodes accs)) 0 0
      hsorted (by simp) hcov']
    ring
  · show (targetBankAmounts banks allocs accs).map _ = _
    unfold targetBankAmounts
    rw [targetLoop_spec banks _ _ _ _ (sortStrs (applyBankCodes accs)) 0 0
      hsorted (by simp) hcov']
    unfold specTargetAmounts
    obtain ⟨lastc, hl⟩ := Option.isSome_iff_exists.mp
      ((List.getLast?_isSome (l := sortStrs (applyBankCodes accs))).mpr hsorted)
    rw [hl]
    simp [List.map_map, Function.comp_def, sub_zero]

set_option maxRecDepth 1000000 in
/-- Witness for `c1_targets_sum_exact`: two counterparties with balances
900 and 100, one stored share of 70 (the other auto-filled with 30). -/
theorem c1_targets_sum_exact_witness :
    let bs : List Bank :=
      [⟨1, "ABANK", none, some "u", true⟩, ⟨2, "BBANK", none, some "u", true⟩]
    let al : List Alloc := [⟨1, 1, some 70⟩]
    let ac : List ExtAccount :=
      [⟨"ABANK", "A Bank", some ⟨"a1", "Checking"⟩, some "900", none⟩,
       ⟨"BBANK", "B Bank", some ⟨"b1", "Checking"⟩, some "100", none⟩]
    (((planOf (apply_balance_allocations bs al ac)).target_bank_amounts.map
        (·.target_amount)).sum = total_balance ac)
    ∧ ((planOf (apply_balance_allocations bs al ac)).target_bank_amounts.map
          (fun e => (e.bank_code, e.target_amount))
        = specTargetAmounts (total_balance ac)
            (shareGet (applyFilledShares bs al ac))
            (sortStrs (applyBankCodes ac))) :=
  c1_targets_sum_exact
    [⟨1, "ABANK", none, some "u", true⟩, ⟨2, "BBANK", none, some "u", true⟩]
    [⟨1, 1, some 70⟩]
    [⟨"ABANK", "A Bank", some ⟨"a1", "Checking"⟩, some "900", none⟩,
     ⟨"BBANK", "B Bank", some ⟨"b1", "Checking"⟩, some "100", none⟩]
    (planOf (apply_balance_allocations
      [⟨1, "ABANK", none, some "u", true⟩, ⟨2, "BBANK", none, some "u", true⟩]
      [⟨1, 1, some 70⟩]
      [⟨"ABANK", "A Bank", some ⟨"a1", "Checking"⟩, some "900", none⟩,
       ⟨"BBANK", "B Bank", some ⟨"b1", "Checking"⟩, some "100", none⟩]))
    (by decide)
    (by with_unfolding_all decide)

/-- **C2**: every payment instruction in the plan produced by the apply
endpoint has a strictly positive amount (only transfer amounts above the
0.01 epsilon are emitted), and no instruction has the same bank id and the
same account id as both source and destination. -/
theorem c2_payments_positive_no_self (banks : List Bank) (allocs : List Alloc)
    (accs : List ExtAccount) (p : ApplyPlan)
    (hp : apply_balance_allocations banks allocs accs = .plan p) :
    ∀ pay ∈ p.payments_list,
      0 < pay.amount
      ∧ ¬(pay.source_bank_id = pay.destination_bank_id
          ∧ pay.source_account_id = pay.destination_account_id) := by
  obtain ⟨hpe, _, _⟩ := apply_plan_eq banks allocs accs p hp
  subst hpe
  intro pay hmem
  show 0 < pay.amount ∧ _
  have hmem' : pay ∈ paymentsList banks allocs accs := hmem
  unfold paymentsList at hmem'
  rw [List.mem_filter] at hmem'
  constructor
  · obtain ⟨t, ht, ha⟩ := matchAux_amounts _ _ _ _ pay hmem'.1
    rw [ha]
    exact quantize2_pos ht
  · intro hcontra
    have hthis := hmem'.2
    rw [hcontra.1, hcontra.2] at hthis
    simp at hthis

set_option maxRecDepth 1000000 in
/-- Witness for `c2_payments_positive_no_self`: a concrete two-bank
scenario whose single planned payment is positive and not a
self-transfer. -/
theorem c2_payments_positive_no_self_witness :
    0 < ((planOf (apply_balance_allocations
        [⟨1, "ABANK", none, some "u", true⟩, ⟨2, "BBANK", none, some "u2", true⟩]
        [⟨1, 1, some 70⟩]
        [⟨"ABANK", "A Bank", some ⟨"a1", "Checking"⟩, some "600", none⟩,
         ⟨"BBANK", "B Bank", some ⟨"b1", "Checking"⟩, some "0", none⟩])).payments_list.headD
        ⟨"", "", 0, "", 0, "", 0⟩).amount
    ∧ ¬(((planOf (apply_balance_allocations
        [⟨1, "ABANK", none, some "u", true⟩, ⟨2, "BBANK", none, some "u2", true⟩]
        [⟨1, 1, some 70⟩]
        [⟨"ABANK", "A Bank", some ⟨"a1", "Checking"⟩, some "600", none⟩,
         ⟨"BBANK", "B Bank", some ⟨"b1", "Checking"⟩, some "0", none⟩])).payments_list.headD
        ⟨"", "", 0, "", 0, "", 0⟩).source_bank_id
          = ((planOf (apply_balance_allocations
        [⟨1, "ABANK", none, some "u", true⟩, ⟨2, "BBANK", none, some "u2", true⟩]
        [⟨1, 1, some 70⟩]
        [⟨"ABANK", "A Bank", some ⟨"a1", "Checking"⟩, some "600", none⟩,
         ⟨"BBANK", "B Bank", some ⟨"b1", "Checking"⟩, some "0", none⟩])).payments_list.headD
        ⟨"", "", 0, "", 0, "", 0⟩).destination_bank_id
      ∧ ((planOf (apply_balance_allocations
        [⟨1, "ABANK", none, some "u", true⟩, ⟨2, "BBANK", none, some "u2", true⟩]
        [⟨1, 1, some 70⟩]
        [⟨"ABANK", "A Bank", some ⟨"a1", "Checking"⟩, some "600", none⟩,
         ⟨"BBANK", "B Bank", some ⟨"b1", "Checking"⟩, some "0", none⟩])).payments_list.headD
        ⟨"", "", 0, "", 0, "", 0⟩).source_account_id
          = ((planOf (apply_balance_allocations
        [⟨1, "ABANK", none, some "u", true⟩, ⟨2, "BBANK", none, some "u2", true⟩]
        [⟨1, 1, some 70⟩]
        [⟨"ABANK", "A Bank", some ⟨"a1", "Checking"⟩, some "600", none⟩,
         ⟨"BBANK", "B Bank", some ⟨"b1", "Checking"⟩, some "0", none⟩])).payments_list.headD
        ⟨"", "", 0, "", 0, "", 0⟩).destination_account_id) :=
  c2_payments_positive_no_self
    [⟨1, "ABANK", none, some "u", true⟩, ⟨2, "BBANK", none, some "u2", true⟩]
    [⟨1, 1, some 70⟩]
    [⟨"ABANK", "A Bank", some ⟨"a1", "Checking"⟩, some "600", none⟩,
     ⟨"BBANK", "B Bank", some ⟨"b1", "Checking"⟩, some "0", none⟩]
    (planOf (apply_balance_allocations
      [⟨1, "ABANK", none, some "u", true⟩, ⟨2, "BBANK", none, some "u2", true⟩]
      [⟨1, 1, some 70⟩]
      [⟨"ABANK", "A Bank", some ⟨"a1", "Checking"⟩, some "600", none⟩,
       ⟨"BBANK", "B Bank", some ⟨"b1", "Checking"⟩, some "0", none⟩]))
    (by with_unfolding_all decide)
    ((planOf (apply_balance_allocations
      [⟨1, "ABANK", none, some "u", true⟩, ⟨2, "BBANK", none, some "u2", true⟩]
      [⟨1, 1, some 70⟩]
      [⟨"ABANK", "A Bank", some ⟨"a1", "Checking"⟩, some "600", none⟩,
       ⟨"BBANK", "B Bank", some ⟨"b1", "Checking"⟩, some "0", none⟩])).payments_list.headD
      ⟨"", "", 0, "", 0, "", 0⟩)
    (by with_unfolding_all decide)

theorem applyBankCodes_nil_of_valid_nil (accs : List ExtAccount)
    (h : (validAccounts accs).isEmpty = true) : applyBankCodes accs = [] := by
  unfold applyBankCodes
  rw [List.isEmpty_iff] at h
  rw [h]
  rfl

/-- A key of the collected explicit shares always carries a stored
explicit share. -/
theorem targetShares_key_some (banks : List Bank) (allocs : List Alloc)
    (accs : List ExtAccount) (c : String) (v : ℚ)
    (h : (c, v) ∈ targetSharesList banks allocs accs) :
    (allocByCode banks allocs (applyBankCodes accs) c).bind (·.target_share)
      = some v := by
  unfold targetSharesList at h
  rw [List.mem_filterMap] at h
  obtain ⟨c', _, hf⟩ := h
  rw [Option.map_eq_some'] at hf
  obtain ⟨s, hs, heq⟩ := hf
  injection heq with h1 h2
  subst h1
  subst h2
  exact hs

theorem find?_key_append (c : String) (v : ℚ) :
    ∀ shares : List (String × ℚ), (∀ p ∈ shares, p.1 ≠ c) →
      (shares ++ [(c, v)]).find? (fun p => p.1 == c) = some (c, v) := by
  intro shares h
  induction shares with
  | nil => simp
  | cons p ps ih =>
    rw [List.cons_append,
      List.find?_cons_of_neg _ (by simpa using h p (List.mem_cons_self _ _))]
    exact ih (fun q hq => h q (List.mem_cons_of_mem _ hq))

/-- **C4**: in every apply computation whose snapshot touches at least two
distinct counterparties: more than one counterparty without a stored
target share is a validation error; if none is missing the shares must
sum to exactly 100 (and any sum above 100 is an error regardless); and
when exactly one counterparty lacks a share, the share function used to
compute the targets assigns it 100 minus the sum of the others. -/
theorem c4_missing_share_validation (banks : List Bank) (allocs : List Alloc)
    (accs : List ExtAccount) (h2 : 2 ≤ (applyBankCodes accs).length) :
    (1 < (emptyShareBanks banks allocs accs).length →
      isValidationError (apply_balance_allocations banks allocs accs) = true)
    ∧ (emptyShareBanks banks allocs accs = [] →
        applyTotalShare banks allocs accs ≠ 100 →
        isValidationError (apply_balance_allocations banks allocs accs) = true)
    ∧ (100 < applyTotalShare banks allocs accs →
        isValidationError (apply_balance_allocations banks allocs accs) = true)
    ∧ (∀ c, emptyShareBanks banks allocs accs = [c] →
        shareGet (applyFilledShares banks allocs accs) c
          = 100 - applyTotalShare banks allocs accs) := by
  have hvne : ¬ (validAccounts accs).isEmpty = true := by
    intro h
    rw [applyBankCodes_nil_of_valid_nil accs h] at h2
    simp at h2
  have hlen1 : ¬ (applyBankCodes accs).length = 1 := by omega
  refine ⟨?_, ?_, ?_, ?_⟩
  · intro hgt1
    by_cases h100 : 100 < applyTotalShare banks allocs accs
    · unfold apply_balance_allocations
      rw [if_neg hvne, if_neg hlen1, if_pos h100]
      rfl
    · have hci : (emptyShareBanks banks allocs accs).isEmpty = false := by
        cases hh : emptyShareBanks banks allocs accs with
        | nil => rw [hh] at hgt1; simp at hgt1
        | cons x xs => rfl
      unfold apply_balance_allocations
      rw [if_neg hvne, if_neg hlen1, if_neg h100,
        if_neg (by rw [hci]; simp), if_pos hgt1]
      rfl
  · intro hemp hne100
    by_cases h100 : 100 < applyTotalShare banks allocs accs
    · unfold apply_balance_allocations
      rw [if_neg hvne, if_neg hlen1, if_pos h100]
      rfl
    · unfold apply_balance_allocations
      rw [if_neg hvne, if_neg hlen1, if_neg h100,
        if_pos (by rw [hemp]; simpa using hne100)]
      rfl
  · intro h100
    unfold apply_balance_allocations
    rw [if_neg hvne, if_neg hlen1, if_pos h100]
    rfl
  · intro c hone
    unfold applyFilledShares
    rw [hone]
    unfold shareGet
    rw [find?_key_append c _ (targetSharesList banks allocs accs) ?keys]
    case keys =>
      intro p hp hpc
      have hsome := targetShares_key_some banks allocs accs p.1 p.2 (by
        have : (p.1, p.2) = p := rfl
        rw [this]
        exact hp)
      have hmemc : c ∈ emptyShareBanks banks allocs accs := by
        rw [hone]; exact List.mem_singleton.mpr rfl
      unfold emptyShareBanks at hmemc
      rw [List.mem_filter] at hmemc
      rw [hpc] at hsome
      rw [hsome] at hmemc
      simp at hmemc

set_option maxRecDepth 1000000 in
/-- Witness for `c4_missing_share_validation`: two counterparties, neither
with a stored share, is rejected with a validation error. -/
theorem c4_missing_share_validation_witness :
    isValidationError (apply_balance_allocations [] []
      [⟨"ABANK", "A Bank", some ⟨"a1", "Checking"⟩, some "10", none⟩,
       ⟨"BBANK", "B Bank", some ⟨"b1", "Checking"⟩, some "20", none⟩]) = true :=
  (c4_missing_share_validation [] []
    [⟨"ABANK", "A Bank", some ⟨"a1", "Checking"⟩, some "10", none⟩,
     ⟨"BBANK", "B Bank", some ⟨"b1", "Checking"⟩, some "20", none⟩]
    (by decide)).1 (by with_unfolding_all decide)

/-- The pure balance parser used by the plan pipeline coincides with the
exception-aware model of the source on every input on which the source
does not raise. -/
theorem applyBalanceChecked_agrees (b : Option String) (v : ℚ)
    (h : applyBalanceChecked b = .ok v) : parseApplyBalance b = v := by
  cases b with
  | none =>
    injection h
  | some s =>
    by_cases hs : s = ""
    · have h0 : applyBalanceChecked (some s) = .ok 0 := by
        show (if s = "" then PyResult.ok 0 else _) = _
        rw [if_pos hs]
      rw [h0] at h
      injection h with h'
      show (if s = "" then 0 else (parseDecimal? s).getD 0) = v
      rw [if_pos hs]
      exact h'
    · cases hp : parseDecimal? s with
      | some w =>
        have h0 : applyBalanceChecked (some s) = .ok w := by
          show (if s = "" then _ else _) = _
          rw [if_neg hs, hp]
        rw [h0] at h
        injection h with h'
        show (if s = "" then 0 else (parseDecimal? s).getD 0) = v
        rw [if_neg hs, hp]
        exact h'
      | none =>
        have h0 : applyBalanceChecked (some s)
            = .raised ("InvalidOperation: " ++ s) := by
          show (if s = "" then _ else _) = _
          rw [if_neg hs, hp]
        rw [h0] at h
        exact PyResult.noConfusion h

/-- **C10** (code bug): the claim — and the dead `balance = Decimal("0")`
fallbacks with their "Invalid balance" warning that were written to
implement it — say an absent or unparsable balance is treated as exactly
0, but the `except (ValueError, TypeError)` clauses do not catch the
`decimal.InvalidOperation` (an `ArithmeticError`) that `Decimal` raises
on an unparsable string, so those handlers are unreachable:
`calculate_bank_balances` propagates an exception for an absent balance
(stringified to "None") and for an unparsable string, and the apply
endpoint's two parsing steps propagate one for a non-empty unparsable
string — each surfacing as HTTP 500 at the endpoint's generic handler —
while only the apply steps' falsy check really maps absent or empty
balances to 0, and parsable balances are aggregated normally. -/
theorem c10_unparsable_balance_raises :
    (calculate_bank_balances
        [⟨"ABANK", "A Bank", some ⟨"a1", "Checking"⟩, none, none⟩] "checking"
      = .raised "InvalidOperation: None")
    ∧ (calculate_bank_balances
        [⟨"ABANK", "A Bank", some ⟨"a1", "Checking"⟩, some "n/a", none⟩] "checking"
      = .raised "InvalidOperation: n/a")
    ∧ (applyBalanceChecked (some "n/a") = .raised "InvalidOperation: n/a")
    ∧ (applyBalanceChecked none = .ok 0)
    ∧ (applyBalanceChecked (some "") = .ok 0)
    ∧ (calculate_bank_balances
        [⟨"ABANK", "A Bank", some ⟨"a1", "Checking"⟩, some "10.50", none⟩] "checking"
      = .ok [("ABANK", 21/2)]) := by
  with_unfolding_all decide

theorem nodup_length_eq_iff_subset {l1 l2 : List ℕ} (h1 : l1.Nodup)
    (h2 : l2.Nodup) (hsub : l1 ⊆ l2) :
    l1.length = l2.length ↔ l2 ⊆ l1 := by
  constructor
  · intro hlen
    have hperm : List.Perm l1 l2 :=
      List.Subperm.perm_of_length_le (List.Nodup.subperm h1 hsub) (le_of_eq hlen.symm)
    exact hperm.symm.subset
  · intro hsub2
    exact List.Perm.length_eq
      (List.Subperm.antisymm (List.Nodup.subperm h1 hsub) (List.Nodup.subperm h2 hsub2))

theorem insertNew_subset {x : ℕ} {l ids : List ℕ} (hx : x ∈ ids)
    (hl : l ⊆ ids) : insertNew x l ⊆ ids := by
  unfold insertNew
  split
  · exact hl
  · intro y hy
    rcases List.mem_append.mp hy with h | h
    · exact hl h
    · rw [List.mem_singleton] at h
      exact h ▸ hx

theorem insertNew_nodup {x : ℕ} {l : List ℕ} (h : l.Nodup) :
    (insertNew x l).Nodup := by
  unfold insertNew
  split
  · exact h
  case isFalse hx =>
    rw [List.nodup_append]
    refine ⟨h, List.nodup_singleton x, ?_⟩
    intro a ha hax
    rw [List.mem_singleton] at hax
    exact hx (hax ▸ ha)

theorem banksWithTargetBase_subset (ids : List ℕ) (allocs : List Alloc)
    (exclA exclB : Option ℕ) :
    banksWithTargetBase ids allocs exclA exclB ⊆ ids := by
  intro x hx
  unfold banksWithTargetBase at hx
  rw [mem_dedupFirst, List.mem_map] at hx
  obtain ⟨a, ha, rfl⟩ := hx
  rw [List.mem_filter] at ha
  have hc := ha.2
  unfold allocCounted at hc
  simp only [Bool.and_eq_true, decide_eq_true_eq] at hc
  exact hc.1.2

theorem banksWithTargetAfter_subset (ids : List ℕ) (allocs : List Alloc)
    (exclA exclB : Option ℕ) :
    banksWithTargetAfter ids allocs exclA exclB ⊆ ids := by
  unfold banksWithTargetAfter
  split_ifs with h1 h2 h3
  · cases hf : allocs.find? (fun a => a.id == exclA.getD 0 && decide (a.bank_id ∈ ids)) with
    | none => exact banksWithTargetBase_subset ids allocs exclA exclB
    | some a =>
      have hp := List.find?_some hf
      simp only [Bool.and_eq_true, decide_eq_true_eq] at hp
      exact insertNew_subset hp.2 (banksWithTargetBase_subset ids allocs exclA exclB)
  · exact insertNew_subset h3 (banksWithTargetBase_subset ids allocs exclA exclB)
  · exact banksWithTargetBase_subset ids allocs exclA exclB
  · exact banksWithTargetBase_subset ids allocs exclA exclB

theorem banksWithTargetAfter_nodup (ids : List ℕ) (allocs : List Alloc)
    (exclA exclB : Option ℕ) :
    (banksWithTargetAfter ids allocs exclA exclB).Nodup := by
  unfold banksWithTargetAfter
  split_ifs with h1 h2 h3
  · cases allocs.find? (fun a => a.id == exclA.getD 0 && decide (a.bank_id ∈ ids)) with
    | none => exact nodup_dedupFirst _
    | some a => exact insertNew_nodup (nodup_dedupFirst _)
  · exact insertNew_nodup (nodup_dedupFirst _)
  · exact nodup_dedupFirst _
  · exact nodup_dedupFirst _

theorem liveBankIds_nodup (banks : List Bank) (codes : List String)
    (hids : (banks.map (·.id)).Nodup) :
    (liveBankIds banks codes).Nodup := by
  unfold liveBankIds
  exact List.Nodup.sublist ((List.filter_sublist banks).map (·.id)) hids

theorem covered_iff_subset (banks : List Bank) (codes : List String)
    (after : List ℕ) :
    (∀ b ∈ banks, b.code ∈ codes → b.id ∈ after)
      ↔ liveBankIds banks codes ⊆ after := by
  unfold liveBankIds
  constructor
  · intro h x hx
    rw [List.mem_map] at hx
    obtain ⟨b, hb, rfl⟩ := hx
    rw [List.mem_filter] at hb
    exact h b hb.1 (by simpa using hb.2)
  · intro h b hb hcode
    exact h (List.mem_map_of_mem (·.id)
      (List.mem_filter.mpr ⟨hb, by simpa using hcode⟩))

/-- **C3** (amended; requires at least one counterparty error-free in the
snapshot): `validate_target_share_sum` rejects, reporting the remaining
headroom, any candidate making the existing live stored shares (excluding
the replaced row) plus the candidate exceed 100; and for candidates
within the headroom it rejects exactly when, after the operation, every
bank with a live error-free account would have an explicit share and the
total differs from 100 (partial coverage may total less than 100). -/
theorem c3_validate_share (banks : List Bank) (allocs : List Alloc)
    (accs : List ExtAccount) (cand : ℚ) (exclA exclB : Option ℕ)
    (hne : liveCodes accs ≠ [])
    (hids : (banks.map (·.id)).Nodup) :
    (100 < existingSum (liveBankIds banks (liveCodes accs)) allocs exclA exclB + cand →
      (validate_target_share_sum banks allocs accs cand exclA exclB).1 = false
      ∧ (validate_target_share_sum banks allocs accs cand exclA exclB).2.2
          = 100 - existingSum (liveBankIds banks (liveCodes accs)) allocs exclA exclB)
    ∧ (existingSum (liveBankIds banks (liveCodes accs)) allocs exclA exclB + cand ≤ 100 →
        ((validate_target_share_sum banks allocs accs cand exclA exclB).1 = false ↔
          ((∀ b ∈ banks, b.code ∈ liveCodes accs →
              b.id ∈ banksWithTargetAfter (liveBankIds banks (liveCodes accs))
                allocs exclA exclB)
            ∧ existingSum (liveBankIds banks (liveCodes accs)) allocs exclA exclB
                + cand ≠ 100))) := by
  have hie : ¬ (liveCodes accs).isEmpty = true := by
    rw [List.isEmpty_iff]
    exact hne
  have hlen_iff : (banksWithTargetAfter (liveBankIds banks (liveCodes accs))
        allocs exclA exclB).length = (liveBankIds banks (liveCodes accs)).length
      ↔ (∀ b ∈ banks, b.code ∈ liveCodes accs →
          b.id ∈ banksWithTargetAfter (liveBankIds banks (liveCodes accs))
            allocs exclA exclB) := by
    rw [covered_iff_subset]
    exact nodup_length_eq_iff_subset
      (banksWithTargetAfter_nodup _ _ _ _)
      (liveBankIds_nodup banks _ hids)
      (banksWithTargetAfter_subset _ _ _ _)
  constructor
  · intro hgt
    unfold validate_target_share_sum
    rw [if_neg hie, if_pos hgt]
    exact ⟨rfl, rfl⟩
  · intro hle
    have hngt : ¬ 100 < existingSum (liveBankIds banks (liveCodes accs))
        allocs exclA exclB + cand := not_lt.mpr hle
    unfold validate_target_share_sum
    rw [if_neg hie, if_neg hngt]
    by_cases hlen : (banksWithTargetAfter (liveBankIds banks (liveCodes accs))
        allocs exclA exclB).length = (liveBankIds banks (liveCodes accs)).length
    · rw [if_pos hlen]
      by_cases hnq : existingSum (liveBankIds banks (liveCodes accs))
          allocs exclA exclB + cand ≠ 100
      · rw [if_pos hnq]
        exact iff_of_true rfl ⟨hlen_iff.mp hlen, hnq⟩
      · rw [if_neg hnq]
        rw [not_not] at hnq
        constructor
        · intro h
          simp at h
        · rintro ⟨_, hq⟩
          exact absurd hnq hq
    · rw [if_neg hlen]
      constructor
      · intro h
        simp at h
      · rintro ⟨hcov, _⟩
        exact absurd (hlen_iff.mpr hcov) hlen

set_option maxRecDepth 1000000 in
/-- Witness for `c3_validate_share`: one live counterparty already holding
a stored share of 50 rejects a candidate of 60 and reports the headroom. -/
theorem c3_validate_share_witness :
    (validate_target_share_sum [⟨1, "ABANK", none, some "u", true⟩]
        [⟨5, 1, some 50⟩]
        [⟨"ABANK", "A Bank", some ⟨"a1", "Checking"⟩, some "10", none⟩]
        60 none none).1 = false
    ∧ (validate_target_share_sum [⟨1, "ABANK", none, some "u", true⟩]
        [⟨5, 1, some 50⟩]
        [⟨"ABANK", "A Bank", some ⟨"a1", "Checking"⟩, some "10", none⟩]
        60 none none).2.2
      = 100 - existingSum
          (liveBankIds [⟨1, "ABANK", none, some "u", true⟩]
            (liveCodes [⟨"ABANK", "A Bank", some ⟨"a1", "Checking"⟩, some "10", none⟩]))
          [⟨5, 1, some 50⟩] none none :=
  (c3_validate_share [⟨1, "ABANK", none, some "u", true⟩] [⟨5, 1, some 50⟩]
    [⟨"ABANK", "A Bank", some ⟨"a1", "Checking"⟩, some "10", none⟩]
    60 none none (by decide) (by decide)).1
    (by with_unfolding_all decide)

set_option maxRecDepth 1000000 in
/-- **C3** (counterexample): with no counterparty error-free in the
snapshot (here a single timed-out one), every live counterparty vacuously
has an explicit share after the operation and the total 0 + 50 differs
from 100, yet the validator accepts the candidate because of its
empty-snapshot early return. -/
theorem c3_counterexample :
    (validate_target_share_sum [] []
        [⟨"ABANK", "A Bank", none, none, some "Timeout"⟩] 50 none none).1 = true
    ∧ (∀ b ∈ ([] : List Bank),
        b.code ∈ liveCodes [⟨"ABANK", "A Bank", none, none, some "Timeout"⟩] →
        b.id ∈ banksWithTargetAfter
          (liveBankIds [] (liveCodes [⟨"ABANK", "A Bank", none, none, some "Timeout"⟩]))
          [] none none)
    ∧ existingSum
        (liveBankIds [] (liveCodes [⟨"ABANK", "A Bank", none, none, some "Timeout"⟩]))
        [] none none + 50 ≠ 100 := by
  refine ⟨by with_unfolding_all decide, ?_, by with_unfolding_all decide⟩
  intro b hb
  cases hb

end BankingBox
